import Mathlib

/-!
Shallow embedding of `src/backend/session/session.c` (wlroots session/device
access manager) and proofs about its claimed properties.

External collaborators (the privileged backend, libudev, libdrm, the wayland
event loop, malloc and fstat) are modelled as environment records whose fields
give the result each external call returns.  The functions below mirror the
control flow of the C source line by line; registry state (the `wl_list` of
`struct device`) is threaded explicitly as a `List Device`.
-/

namespace Session

/-- Model of `struct device`: one registry entry per currently-open privileged fd.
`fd` is the open descriptor, `dev` the `dev_t` captured by `fstat` at open
time (`st_rdev`).  The `wl_signal` is modelled by the entry's identity; signal
emission is recorded in the dispatch model (`udev_event`). -/
structure Device where
  fd : Int
  dev : Nat
deriving Repr, DecidableEq

/-- Environment for one `wlr_session_open_file` call: result of
`session->impl->open` (a negative value means the backend open failed),
whether `malloc` succeeds, and the result of `fstat` on the returned
descriptor (`some st_rdev` on success, `none` on failure). -/
structure OpenEnv where
  backendFd : Int
  allocOk : Bool
  statResult : Option Nat
deriving Repr, DecidableEq

/-- Result of `wlr_session_open_file`: the returned value, the registry after
the call, and whether the function closed the backend-opened fd before
returning (the C code never does on any path). -/
structure OpenResult where
  ret : Int
  devices : List Device
  fdClosed : Bool
deriving Repr, DecidableEq

/-- The function `wlr_session_open_file` (session.c lines 131-159).  `path` is handed to
the backend only; the backend's answer for it is `env.backendFd`.  On
`fd < 0` the backend error is returned unchanged.  On `malloc` failure or
`fstat` failure the code does `free(dev); return fd;` — the registry is left
unchanged, the fd is not closed, and the (non-negative) fd is returned.
Otherwise the entry `{fd, st_rdev}` is inserted at the front of the list
(`wl_list_insert` after the head). -/
def wlr_session_open_file (devices : List Device) (path : String)
    (env : OpenEnv) : OpenResult :=
  let _ := path
  let fd := env.backendFd
  if fd < 0 then
    ⟨fd, devices, false⟩
  else if !env.allocOk then
    ⟨fd, devices, false⟩
  else
    match env.statResult with
    | none => ⟨fd, devices, false⟩
    | some rdev => ⟨fd, ⟨fd, rdev⟩ :: devices, false⟩

/-- The lookup `find_device` (session.c lines 161-172): first registry entry whose `fd`
matches, or `none`, in which case the C code logs and hits `assert(0)`. -/
def find_device (devices : List Device) (fd : Int) : Option Device :=
  devices.find? (fun d => d.fd == fd)

/-- Removal of the first entry with the given fd (`wl_list_remove` of the
entry `find_device` returned). -/
def removeDevice : List Device → Int → List Device
  | [], _ => []
  | d :: ds, fd => if d.fd == fd then ds else d :: removeDevice ds fd

/-- The function `wlr_session_close_file` (session.c lines 174-180).  `.error ()` is the
fatal `assert(0)` path reached through `find_device` when no entry matches;
on it the process aborts before `impl->close` runs, so nothing is closed and
no state changes.  On success the backend close runs and the entry is removed
and freed. -/
def wlr_session_close_file (devices : List Device) (fd : Int) :
    Except Unit (List Device) :=
  match find_device devices fd with
  | none => .error ()
  | some _ => .ok (removeDevice devices fd)

/-- The function `wlr_session_signal_add` (session.c lines 182-187): attaches a listener
to the matching entry's change signal; `.error ()` is the same fatal
`assert(0)` path as `wlr_session_close_file`.  Returns the entry whose signal
gains the listener. -/
def wlr_session_signal_add (devices : List Device) (fd : Int) :
    Except Unit Device :=
  match find_device devices fd with
  | none => .error ()
  | some dev => .ok dev

/-- One record delivered by `udev_monitor_receive_device`: the action string
(`none` when `udev_device_get_action` returns NULL) and the kernel device
number reported by `udev_device_get_devnum`. -/
structure UdevRecord where
  action : Option String
  devnum : Nat
deriving Repr, DecidableEq

/-- Result of one `udev_event` dispatch: the signals fired, each as the
registry entry whose `change_signal` was emitted paired with the context
argument of `wl_signal_emit` (the session, identified by `sessionId`); and
whether `udev_device_unref` released the record before returning. -/
structure DispatchResult where
  fired : List (Device × Nat)
  released : Bool
deriving Repr, DecidableEq

/-- The callback `udev_event` (session.c lines 34-64) for a delivered record (the
`receive` returned non-NULL).  Records whose action is not exactly "change"
are dropped (`goto out`).  Otherwise the registry is scanned front to back
and the first entry whose `dev` equals the record's devnum has its signal
emitted once, with the session as context, then the scan `break`s.  The
record is unreffed on every path. -/
def udev_event (sessionId : Nat) (devices : List Device)
    (rec : UdevRecord) : DispatchResult :=
  if rec.action ≠ some ("change") then
    ⟨[], true⟩
  else
    match devices.find? (fun d => d.dev == rec.devnum) with
    | none => ⟨[], true⟩
    | some d => ⟨[(d, sessionId)], true⟩

/-- The release operations `wlr_session_create`'s rollback and
`wlr_session_destroy` can perform, in the order the C source names them. -/
inductive Rel
  | eventSourceRemove
  | monUnref
  | udevUnref
  | backendDestroy
deriving Repr, DecidableEq

/-- Environment for `wlr_session_create`: whether some backend's `create`
succeeds, and whether `udev_new`, `udev_monitor_new_from_netlink` and
`wl_event_loop_add_fd` succeed. -/
structure CreateEnv where
  backendOk : Bool
  udevOk : Bool
  monOk : Bool
  eventOk : Bool
deriving Repr, DecidableEq

/-- The teardown `wlr_session_destroy` (session.c lines 119-129) on a non-null session:
unconditionally `wl_event_source_remove(session->udev_event)`,
`udev_monitor_unref(session->mon)`, `udev_unref(session->udev)`, then
`session->impl->destroy(session)`, whatever those fields currently hold. -/
def wlr_session_destroy_rels : List Rel :=
  [.eventSourceRemove, .monUnref, .udevUnref, .backendDestroy]

/-- The function `wlr_session_destroy` including the null check (lines 120-122): a no-op
on a null session. -/
def wlr_session_destroy (sessionPresent : Bool) : List Rel :=
  if sessionPresent then wlr_session_destroy_rels else []

/-- The function `wlr_session_create` (session.c lines 66-117): `none` with the release
operations performed on the failure path, or `some ()` on success.  The
`goto` chain on failure: `error_mon` unrefs the monitor, falls through to
`error_udev` which unrefs the udev context, falls through to `error_session`
which calls `wlr_session_destroy` — which unrefs monitor and context again. -/
def wlr_session_create (env : CreateEnv) : Option Unit × List Rel :=
  if !env.backendOk then
    (none, [])
  else if !env.udevOk then
    (none, wlr_session_destroy true)
  else if !env.monOk then
    (none, Rel.udevUnref :: wlr_session_destroy true)
  else if !env.eventOk then
    (none, Rel.monUnref :: Rel.udevUnref :: wlr_session_destroy true)
  else
    (some (), [])

/-- Which resources a `wlr_session_create` run with environment `env`
actually acquired before its first failure (the backend session itself
aside).  `udev` is acquired once `udev_new` succeeds, the monitor once
`udev_monitor_new_from_netlink` succeeds, the event source once
`wl_event_loop_add_fd` succeeds. -/
def acquiredUdev (env : CreateEnv) : Bool := env.backendOk && env.udevOk

def acquiredMon (env : CreateEnv) : Bool := acquiredUdev env && env.monOk

def acquiredEventSource (env : CreateEnv) : Bool := acquiredMon env && env.eventOk

/-- The two backend implementations `session.c` links against. -/
inductive BackendImpl
  | logind
  | direct
deriving Repr, DecidableEq

/-- The `impls` priority array (session.c lines 26-32): `session_logind`
first when built with HAS_SYSTEMD, then `session_direct`; NULL-terminated. -/
def impls (hasSystemd : Bool) : List BackendImpl :=
  if hasSystemd then [.logind, .direct] else [.direct]

/-- The probe loop of `wlr_session_create` (lines 70-72):
`for (iter = impls; !session && *iter; ++iter) session = (*iter)->create(disp);`.
`ok b` tells whether backend `b`'s own `create` succeeds.  Returns the
selected backend (`none` when every probe fails) and the list of backends
whose `create` was invoked, in order. -/
def probe_backends (ok : BackendImpl → Bool) :
    List BackendImpl → Option BackendImpl × List BackendImpl
  | [] => (none, [])
  | b :: bs =>
    if ok b then
      (some b, [b])
    else
      let r := probe_backends ok bs
      (r.1, b :: r.2)

/-- Environment for one `device_is_kms` probe: the `OpenEnv` its
`wlr_session_open_file` call sees, and the result of `drmModeGetResources`
(`none` when it returns NULL, otherwise the `count_crtcs`, `count_connectors`
and `count_encoders` fields). -/
structure KmsEnv where
  openEnv : OpenEnv
  resources : Option (Int × Int × Int)
deriving Repr, DecidableEq

/-- Result of `device_is_kms`: the return value, the final `*fd_out`, the
registry after the probe, the fds closed through `wlr_session_close_file` in
order, and whether a close hit the fatal `assert(0)` (which aborts the
process mid-probe). -/
structure KmsResult where
  accepted : Bool
  fdOut : Int
  devices : List Device
  closedFds : List Int
  fatal : Bool
deriving Repr, DecidableEq

/-- One `wlr_session_close_file` call as `device_is_kms` performs it:
returns the registry afterwards, the fds actually closed (`[fd]` on the
normal path), and whether the call hit the fatal assertion, which aborts the
process before `impl->close` runs (so nothing is closed and the registry is
untouched). -/
def closeThrough (devices : List Device) (fd : Int) :
    List Device × List Int × Bool :=
  match wlr_session_close_file devices fd with
  | .error () => (devices, [], true)
  | .ok ds => (ds, [fd], false)

/-- The probe `device_is_kms` (session.c lines 200-239).  NULL path: reject without
opening.  Open failure: reject.  NULL resources or a non-positive
crtc/connector/encoder count: close the probed fd and reject (`out_res` /
`out_fd`).  Otherwise accept: close the previously accepted `*fd_out` if one
exists, then store the new fd in `*fd_out`. -/
def device_is_kms (devices : List Device) (path : Option String)
    (env : KmsEnv) (fdOut : Int) : KmsResult :=
  match path with
  | none => ⟨false, fdOut, devices, [], false⟩
  | some p =>
    let r := wlr_session_open_file devices p env.openEnv
    if r.ret < 0 then
      ⟨false, fdOut, r.devices, [], false⟩
    else
      match env.resources with
      | none =>
        let c := closeThrough r.devices r.ret
        ⟨false, fdOut, c.1, c.2.1, c.2.2⟩
      | some (crtcs, connectors, encoders) =>
        if crtcs ≤ 0 || connectors ≤ 0 || encoders ≤ 0 then
          let c := closeThrough r.devices r.ret
          ⟨false, fdOut, c.1, c.2.1, c.2.2⟩
        else
          if 0 ≤ fdOut then
            let c := closeThrough r.devices fdOut
            ⟨true, r.ret, c.1, c.2.1, c.2.2⟩
          else
            ⟨true, r.ret, r.devices, [], false⟩

/-- One `card[0-9]*` enumeration entry in `wlr_session_find_gpu`:
whether `udev_device_new_from_syspath` succeeds, whether a PCI ancestor has
`boot_vga` equal to "1", the devnode (`none` when
`udev_device_get_devnode` returns NULL), and the probe environment. -/
structure Candidate where
  resolvable : Bool
  bootVga : Bool
  devnode : Option String
  kms : KmsEnv
deriving Repr, DecidableEq

/-- Result of the `wlr_session_find_gpu` enumeration loop: the candidate fd
(`-1` when none accepted), the registry, the fds closed through Session
Core, the candidates whose loop body ran (in order), the candidates that
were probed (`device_is_kms` invoked), whether the loop `break`ed at an
accepted boot-VGA candidate, and whether a probe aborted fatally. -/
structure GpuLoopResult where
  fd : Int
  devices : List Device
  closedFds : List Int
  examined : List Candidate
  probed : List Candidate
  broke : Bool
  fatal : Bool
deriving Repr, DecidableEq

/-- One iteration of the `udev_list_entry_foreach` loop of
`wlr_session_find_gpu` (session.c lines 258-306), on the loop state.  Once
the loop has `break`ed (accepted boot-VGA candidate) or the process aborted
(fatal close inside a probe), later entries never run.  Unresolvable
candidates are skipped; a non-boot-VGA candidate is skipped without probing
once `fd >= 0`; otherwise the candidate is probed with `device_is_kms`
(which threads `&fd`), and an accepted boot-VGA candidate `break`s. -/
def gpu_step (s : GpuLoopResult) (c : Candidate) : GpuLoopResult :=
  if s.broke || s.fatal then s
  else if !c.resolvable then
    { s with examined := s.examined ++ [c] }
  else if !c.bootVga && 0 ≤ s.fd then
    { s with examined := s.examined ++ [c] }
  else
    let k := device_is_kms s.devices c.devnode c.kms s.fd
    if k.fatal then
      { s with fd := k.fdOut, devices := k.devices,
               closedFds := s.closedFds ++ k.closedFds,
               examined := s.examined ++ [c], probed := s.probed ++ [c],
               fatal := true }
    else if !k.accepted then
      { s with fd := k.fdOut, devices := k.devices,
               closedFds := s.closedFds ++ k.closedFds,
               examined := s.examined ++ [c], probed := s.probed ++ [c] }
    else if c.bootVga then
      { s with fd := k.fdOut, devices := k.devices,
               closedFds := s.closedFds ++ k.closedFds,
               examined := s.examined ++ [c], probed := s.probed ++ [c],
               broke := true }
    else
      { s with fd := k.fdOut, devices := k.devices,
               closedFds := s.closedFds ++ k.closedFds,
               examined := s.examined ++ [c], probed := s.probed ++ [c] }

/-- The whole enumeration loop from a given registry and initial `fd`. -/
def find_gpu_loop (devices : List Device) (fd : Int)
    (cs : List Candidate) : GpuLoopResult :=
  cs.foldl gpu_step ⟨fd, devices, [], [], [], false, false⟩

/-- Environment for `wlr_session_find_gpu`: whether `udev_enumerate_new`
succeeds, and the enumerated candidates in order. -/
structure GpuEnv where
  enumerateOk : Bool
  candidates : List Candidate
deriving Repr, DecidableEq

/-- The function `wlr_session_find_gpu` (session.c lines 244-311): `-1` when enumeration
setup fails, otherwise the loop starting from `fd = -1`. -/
def wlr_session_find_gpu (devices : List Device) (env : GpuEnv) :
    GpuLoopResult :=
  if !env.enumerateOk then
    ⟨-1, devices, [], [], [], false, false⟩
  else
    find_gpu_loop devices (-1) env.candidates

/-- All three mode-setting resource counts strictly positive (and the
resource query itself succeeded). -/
def resPositive : Option (Int × Int × Int) → Bool
  | none => false
  | some (crtcs, connectors, encoders) =>
    decide (0 < crtcs) && decide (0 < connectors) && decide (0 < encoders)

/-- A candidate whose probe would succeed: devnode present, backend open
succeeds, all three resource counts strictly positive. -/
def kms_capable (c : Candidate) : Bool :=
  c.devnode.isSome && decide (0 ≤ c.kms.openEnv.backendFd) &&
    resPositive c.kms.resources

/-- A candidate the loop can accept: resolvable and KMS-capable. -/
def eligibleCand (c : Candidate) : Bool := c.resolvable && kms_capable c

/-- The fd a candidate's backend open hands out. -/
def candFd (c : Candidate) : Int := c.kms.openEnv.backendFd

/-- Spec-side description, for comparison with the loop: the fd GPU discovery is specified to return —
the first KMS-capable boot-VGA candidate's fd when one exists, otherwise the
first KMS-capable candidate's fd, otherwise the incoming fd (`-1` at the
top-level call).  This is the spec-side description compared against
`find_gpu_loop`. -/
def specLoopFd (cs : List Candidate) (fd : Int) : Int :=
  match cs.find? (fun c => eligibleCand c && c.bootVga) with
  | some c => candFd c
  | none =>
    if 0 ≤ fd then fd
    else
      match cs.find? eligibleCand with
      | some c => candFd c
      | none => fd

/-- One call in a session-lifetime trace: an open (with its environment) or
a close. -/
inductive Op
  | openF (path : String) (env : OpenEnv)
  | closeF (fd : Int)
deriving Repr, DecidableEq

/-- Trace state for sequences of `wlr_session_open_file` /
`wlr_session_close_file` calls: the registry, every fd handed out (returned
non-negative) in order, every fd closed through the API, the number of opens
that returned a valid fd, the number of completed closes, whether a close
hit the fatal assertion, and whether the trace stayed well behaved (no
alloc/stat failure inside a successful open, and every handed-out fd fresh). -/
structure RunState where
  devices : List Device
  handedOut : List Int
  closedFds : List Int
  succOpens : Nat
  closes : Nat
  fatal : Bool
  wellBehaved : Bool
deriving Repr, DecidableEq

/-- The state of a freshly created session: empty registry
(`wl_list_init(&session->devices)`). -/
def initState : RunState := ⟨[], [], [], 0, 0, false, true⟩

/-- One API call applied to the trace state.  After a fatal assertion the
process is gone, so the state no longer changes. -/
def runStep (s : RunState) : Op → RunState
  | .openF path env =>
    if s.fatal then s
    else
      let r := wlr_session_open_file s.devices path env
      if r.ret < 0 then
        { s with devices := r.devices }
      else
        { s with devices := r.devices,
                 handedOut := s.handedOut ++ [r.ret],
                 succOpens := s.succOpens + 1,
                 wellBehaved := s.wellBehaved &&
                   !s.handedOut.contains r.ret &&
                   env.allocOk && env.statResult.isSome }
  | .closeF fd =>
    if s.fatal then s
    else
      match wlr_session_close_file s.devices fd with
      | .error () => { s with fatal := true }
      | .ok ds => { s with devices := ds,
                           closedFds := s.closedFds ++ [fd],
                           closes := s.closes + 1 }

/-- A whole trace from a freshly created session. -/
def runOps (ops : List Op) : RunState := ops.foldl runStep initState

/-- Model of `struct wlr_session`, for the fields the lifecycle claims speak about:
the backend chosen at creation, the `active` flag, and the registry. -/
structure WlrSession where
  impl : BackendImpl
  active : Bool
  devices : List Device
deriving Repr, DecidableEq

/-- The call `wlr_session_open_file` at session level. -/
def sessionOpenFile (s : WlrSession) (path : String) (env : OpenEnv) :
    Int × WlrSession :=
  let r := wlr_session_open_file s.devices path env
  (r.ret, { s with devices := r.devices })

/-- The call `wlr_session_close_file` at session level. -/
def sessionCloseFile (s : WlrSession) (fd : Int) : Except Unit WlrSession :=
  (wlr_session_close_file s.devices fd).map
    (fun ds => { s with devices := ds })

/-- The callback `udev_event` at session level: dispatch reads the session and the
registry but writes neither. -/
def sessionDispatch (sessionId : Nat) (s : WlrSession) (rec : UdevRecord) :
    WlrSession × DispatchResult :=
  (s, udev_event sessionId s.devices rec)

/-- The registry-consistency invariant of a trace state: entry count equals
valid opens minus completed closes; entry fds are pairwise distinct; an fd
has an entry exactly when it was handed out and not yet closed; handed-out
fds are pairwise distinct; closed fds were handed out. -/
def RunInv (s : RunState) : Prop :=
  s.devices.length + s.closes = s.succOpens ∧
  (s.devices.map Device.fd).Nodup ∧
  (∀ f : Int, f ∈ s.devices.map Device.fd ↔
    f ∈ s.handedOut ∧ f ∉ s.closedFds) ∧
  s.handedOut.Nodup ∧
  (∀ f ∈ s.closedFds, f ∈ s.handedOut)

/-! ## Helper lemmas -/

theorem open_file_ret (devices : List Device) (path : String) (env : OpenEnv) :
    (wlr_session_open_file devices path env).ret = env.backendFd := by
  unfold wlr_session_open_file
  dsimp only
  split
  · rfl
  · split
    · rfl
    · cases env.statResult <;> rfl

theorem open_file_fdClosed (devices : List Device) (path : String)
    (env : OpenEnv) :
    (wlr_session_open_file devices path env).fdClosed = false := by
  unfold wlr_session_open_file
  dsimp only
  split
  · rfl
  · split
    · rfl
    · cases env.statResult <;> rfl

theorem open_file_devices_of_backend_fail (devices : List Device)
    (path : String) (env : OpenEnv) (h : env.backendFd < 0) :
    (wlr_session_open_file devices path env).devices = devices := by
  unfold wlr_session_open_file
  simp [h]

theorem open_file_devices_of_alloc_fail (devices : List Device) (path : String)
    (env : OpenEnv) (h : env.allocOk = false) :
    (wlr_session_open_file devices path env).devices = devices := by
  unfold wlr_session_open_file
  dsimp only
  split
  · rfl
  · simp [h]

theorem open_file_devices_of_stat_fail (devices : List Device) (path : String)
    (env : OpenEnv) (h : env.statResult = none) :
    (wlr_session_open_file devices path env).devices = devices := by
  unfold wlr_session_open_file
  dsimp only
  split
  · rfl
  · split
    · rfl
    · simp [h]

theorem open_file_devices_of_ok (devices : List Device) (path : String)
    (env : OpenEnv) (rdev : Nat) (hfd : 0 ≤ env.backendFd)
    (halloc : env.allocOk = true) (hstat : env.statResult = some rdev) :
    (wlr_session_open_file devices path env).devices =
      ⟨env.backendFd, rdev⟩ :: devices := by
  unfold wlr_session_open_file
  simp [Int.not_lt.mpr hfd, halloc, hstat]

theorem open_file_devices_membership (devices : List Device) (path : String)
    (env : OpenEnv) (d : Device)
    (h : d ∈ (wlr_session_open_file devices path env).devices) :
    d ∈ devices ∨
      (d.fd = env.backendFd ∧ env.statResult = some d.dev) := by
  unfold wlr_session_open_file at h
  dsimp only at h
  split at h
  · exact Or.inl h
  · split at h
    · exact Or.inl h
    · split at h
      · exact Or.inl h
      · rename_i rdev hs
        rcases List.mem_cons.mp h with h | h
        · subst h; exact Or.inr ⟨rfl, hs⟩
        · exact Or.inl h

theorem find_device_eq_none (devices : List Device) (fd : Int)
    (h : ∀ d ∈ devices, d.fd ≠ fd) : find_device devices fd = none := by
  unfold find_device
  rw [List.find?_eq_none]
  intro d hd
  simpa using h d hd

theorem find_device_mem (devices : List Device) (fd : Int) (d : Device)
    (h : find_device devices fd = some d) : d ∈ devices ∧ d.fd = fd := by
  unfold find_device at h
  refine ⟨List.mem_of_find?_eq_some h, ?_⟩
  have := List.find?_some h
  simpa using this

theorem find_device_isSome (devices : List Device) (fd : Int)
    (h : ∃ d ∈ devices, d.fd = fd) : ∃ d, find_device devices fd = some d := by
  obtain ⟨d, hd, hfd⟩ := h
  unfold find_device
  cases hf : List.find? (fun d => d.fd == fd) devices with
  | some x => exact ⟨x, rfl⟩
  | none =>
    rw [List.find?_eq_none] at hf
    exact absurd (by simpa using hfd) (by simpa using hf d hd)

theorem find?_append_first {α : Type _} (p : α → Bool) (xs ys : List α) (d : α)
    (hxs : ∀ x ∈ xs, p x = false) (hd : p d = true) :
    (xs ++ d :: ys).find? p = some d := by
  induction xs with
  | nil => simp [List.find?_cons_of_pos _ hd]
  | cons x xs ih =>
    have hx := hxs x (List.mem_cons_self x xs)
    rw [List.cons_append, List.find?_cons_of_neg _ (by simp [hx])]
    exact ih (fun y hy => hxs y (List.mem_cons_of_mem x hy))

theorem removeDevice_sublist (devices : List Device) (fd : Int) :
    (removeDevice devices fd).Sublist devices := by
  induction devices with
  | nil => simp [removeDevice]
  | cons d ds ih =>
    unfold removeDevice
    split
    · exact List.sublist_cons_self d ds
    · exact ih.cons₂ d

theorem removeDevice_mem (devices : List Device) (fd : Int) (d : Device)
    (h : d ∈ removeDevice devices fd) : d ∈ devices :=
  (removeDevice_sublist devices fd).mem h

theorem removeDevice_mem_of_ne (devices : List Device) (fd : Int) (d : Device)
    (hd : d ∈ devices) (hne : d.fd ≠ fd) : d ∈ removeDevice devices fd := by
  induction devices with
  | nil => cases hd
  | cons x ds ih =>
    unfold removeDevice
    rcases List.mem_cons.mp hd with h | h
    · subst h
      simp [hne]
    · split
      · exact h
      · exact List.mem_cons_of_mem x (ih h)

theorem removeDevice_length (devices : List Device) (fd : Int)
    (h : ∃ d ∈ devices, d.fd = fd) :
    (removeDevice devices fd).length + 1 = devices.length := by
  induction devices with
  | nil => simp at h
  | cons d ds ih =>
    unfold removeDevice
    split
    · simp
    · rename_i hne
      obtain ⟨x, hx, hfd⟩ := h
      rcases List.mem_cons.mp hx with h | h
      · subst h; simp [hfd] at hne
      · simp only [List.length_cons]
        rw [← ih ⟨x, h, hfd⟩]

theorem removeDevice_map_fd (devices : List Device) (fd : Int)
    (hnd : (devices.map Device.fd).Nodup) (f : Int) :
    f ∈ (removeDevice devices fd).map Device.fd ↔
      f ∈ devices.map Device.fd ∧ f ≠ fd := by
  induction devices with
  | nil => simp [removeDevice]
  | cons d ds ih =>
    simp only [List.map_cons, List.nodup_cons] at hnd
    unfold removeDevice
    by_cases heq : d.fd = fd
    · rw [if_pos (by simpa using heq)]
      constructor
      · intro hf
        refine ⟨List.mem_cons_of_mem _ hf, ?_⟩
        intro hc
        have hmem : d.fd ∈ List.map Device.fd ds := by rw [heq, ← hc]; exact hf
        exact hnd.1 hmem
      · rintro ⟨hf, hne⟩
        simp only [List.map_cons, List.mem_cons] at hf
        rcases hf with h | h
        · exact absurd (h.trans heq) hne
        · exact h
    · rw [if_neg (by simpa using heq)]
      simp only [List.map_cons, List.mem_cons]
      rw [ih hnd.2]
      constructor
      · rintro (h | ⟨h, hn⟩)
        · subst h
          exact ⟨Or.inl rfl, heq⟩
        · exact ⟨Or.inr h, hn⟩
      · rintro ⟨h | h, hn⟩
        · exact Or.inl h
        · exact Or.inr ⟨h, hn⟩

theorem close_file_ok (devices : List Device) (fd : Int) (ds : List Device)
    (h : wlr_session_close_file devices fd = .ok ds) :
    ds = removeDevice devices fd := by
  unfold wlr_session_close_file at h
  split at h
  · cases h
  · cases h; rfl

theorem closeThrough_found (devices : List Device) (fd : Int)
    (h : ∃ d ∈ devices, d.fd = fd) :
    closeThrough devices fd = (removeDevice devices fd, [fd], false) := by
  obtain ⟨d, hd⟩ := find_device_isSome devices fd h
  unfold closeThrough wlr_session_close_file
  rw [hd]

theorem closeThrough_missing (devices : List Device) (fd : Int)
    (h : ∀ d ∈ devices, d.fd ≠ fd) :
    closeThrough devices fd = (devices, [], true) := by
  unfold closeThrough wlr_session_close_file
  rw [find_device_eq_none devices fd h]

theorem closeThrough_fst_mem (devices : List Device) (fd : Int) (d : Device)
    (h : d ∈ (closeThrough devices fd).1) : d ∈ devices := by
  unfold closeThrough at h
  split at h
  · exact h
  · rename_i ds hds
    rw [close_file_ok devices fd ds hds] at h
    exact removeDevice_mem devices fd d h

theorem device_is_kms_accepted (devices : List Device) (path : Option String)
    (env : KmsEnv) (fdOut : Int) :
    (device_is_kms devices path env fdOut).accepted =
      (path.isSome && decide (0 ≤ env.openEnv.backendFd) &&
        resPositive env.resources) := by
  cases path with
  | none => simp [device_is_kms]
  | some p =>
    simp only [device_is_kms, open_file_ret, Option.isSome_some, Bool.true_and]
    by_cases hfd : env.openEnv.backendFd < 0
    · rw [if_pos hfd]
      simp [decide_eq_false (Int.not_le.mpr hfd)]
    · rw [if_neg hfd]
      rw [decide_eq_true (Int.not_lt.mp hfd), Bool.true_and]
      cases hres : env.resources with
      | none => simp [resPositive]
      | some t =>
        obtain ⟨crtcs, connectors, encoders⟩ := t
        dsimp only
        by_cases hc : crtcs ≤ 0 || connectors ≤ 0 || encoders ≤ 0
        · rw [if_pos hc]
          simp only [resPositive]
          simp only [Bool.or_eq_true, decide_eq_true_eq] at hc
          rcases hc with (h | h) | h <;>
            simp [decide_eq_false (Int.not_lt.mpr h)]
        · rw [if_neg hc]
          simp only [Bool.or_eq_true, decide_eq_true_eq, not_or, Int.not_le] at hc
          have : resPositive (some (crtcs, connectors, encoders)) = true := by
            simp [resPositive, hc.1.1, hc.1.2, hc.2]
          rw [this]
          split <;> rfl

theorem device_is_kms_fdOut (devices : List Device) (path : Option String)
    (env : KmsEnv) (fdOut : Int) :
    (device_is_kms devices path env fdOut).fdOut =
      (if (device_is_kms devices path env fdOut).accepted then
        env.openEnv.backendFd else fdOut) := by
  cases path with
  | none => simp [device_is_kms]
  | some p =>
    simp only [device_is_kms, open_file_ret]
    split
    · rfl
    · split
      · rfl
      · split
        · rfl
        · split <;> rfl

theorem device_is_kms_fdOut_nonneg (devices : List Device)
    (path : Option String) (env : KmsEnv) (fdOut : Int) (h : 0 ≤ fdOut) :
    0 ≤ (device_is_kms devices path env fdOut).fdOut := by
  rw [device_is_kms_fdOut]
  split
  · rename_i hacc
    rw [device_is_kms_accepted] at hacc
    have := (Bool.and_eq_true _ _).mp hacc
    have h1 := (Bool.and_eq_true _ _).mp this.1
    exact of_decide_eq_true h1.2
  · exact h

theorem device_is_kms_devices_mem (devices : List Device)
    (path : Option String) (env : KmsEnv) (fdOut : Int) (d : Device)
    (h : d ∈ (device_is_kms devices path env fdOut).devices) :
    d ∈ devices ∨
      (d.fd = env.openEnv.backendFd ∧ env.openEnv.statResult = some d.dev) := by
  cases path with
  | none => exact Or.inl h
  | some p =>
    simp only [device_is_kms] at h
    split at h
    · exact open_file_devices_membership devices p env.openEnv d h
    · split at h
      · exact open_file_devices_membership devices p env.openEnv d
          (closeThrough_fst_mem _ _ d h)
      · split at h
        · exact open_file_devices_membership devices p env.openEnv d
            (closeThrough_fst_mem _ _ d h)
        · split at h
          · exact open_file_devices_membership devices p env.openEnv d
              (closeThrough_fst_mem _ _ d h)
          · exact open_file_devices_membership devices p env.openEnv d h

theorem closeThrough_cons_self (d : Device) (devices : List Device) :
    closeThrough (d :: devices) d.fd = (devices, [d.fd], false) := by
  rw [closeThrough_found _ _ ⟨d, List.mem_cons_self d devices, rfl⟩]
  simp [removeDevice]

theorem closeThrough_cons_ne (d : Device) (devices : List Device) (fd : Int)
    (hne : d.fd ≠ fd) (h : ∃ x ∈ devices, x.fd = fd) :
    closeThrough (d :: devices) fd = (d :: removeDevice devices fd, [fd], false) := by
  obtain ⟨x, hx, hfd⟩ := h
  rw [closeThrough_found _ _ ⟨x, List.mem_cons_of_mem d hx, hfd⟩]
  simp [removeDevice, hne]

theorem device_is_kms_none_path (devices : List Device) (env : KmsEnv)
    (fdOut : Int) :
    device_is_kms devices none env fdOut = ⟨false, fdOut, devices, [], false⟩ :=
  rfl

theorem device_is_kms_open_fail (devices : List Device) (p : String)
    (env : KmsEnv) (fdOut : Int) (h : env.openEnv.backendFd < 0) :
    device_is_kms devices (some p) env fdOut =
      ⟨false, fdOut, devices, [], false⟩ := by
  simp only [device_is_kms, open_file_ret]
  rw [if_pos h, open_file_devices_of_backend_fail devices p env.openEnv h]

theorem device_is_kms_reject_after_open (devices : List Device) (p : String)
    (env : KmsEnv) (fdOut : Int) (rdev : Nat)
    (hAlloc : env.openEnv.allocOk = true)
    (hStat : env.openEnv.statResult = some rdev)
    (hfd : 0 ≤ env.openEnv.backendFd)
    (hres : resPositive env.resources = false) :
    device_is_kms devices (some p) env fdOut =
      ⟨false, fdOut, devices, [env.openEnv.backendFd], false⟩ := by
  simp only [device_is_kms, open_file_ret]
  rw [if_neg (Int.not_lt.mpr hfd),
    open_file_devices_of_ok devices p env.openEnv rdev hfd hAlloc hStat]
  cases henv : env.resources with
  | none =>
    dsimp only
    rw [closeThrough_cons_self ⟨env.openEnv.backendFd, rdev⟩ devices]
  | some t =>
    obtain ⟨crtcs, connectors, encoders⟩ := t
    rw [henv] at hres
    simp only [resPositive, Bool.and_eq_false_iff, decide_eq_false_iff_not,
      Int.not_lt] at hres
    dsimp only
    rw [if_pos (by
      rcases hres with (h | h) | h <;> simp [decide_eq_true h]
      )]
    rw [closeThrough_cons_self ⟨env.openEnv.backendFd, rdev⟩ devices]

theorem device_is_kms_accept_first (devices : List Device) (p : String)
    (env : KmsEnv) (fdOut : Int) (rdev : Nat)
    (hAlloc : env.openEnv.allocOk = true)
    (hStat : env.openEnv.statResult = some rdev)
    (hfd : 0 ≤ env.openEnv.backendFd)
    (hres : resPositive env.resources = true)
    (hOut : fdOut < 0) :
    device_is_kms devices (some p) env fdOut =
      ⟨true, env.openEnv.backendFd, ⟨env.openEnv.backendFd, rdev⟩ :: devices,
        [], false⟩ := by
  simp only [device_is_kms, open_file_ret]
  rw [if_neg (Int.not_lt.mpr hfd),
    open_file_devices_of_ok devices p env.openEnv rdev hfd hAlloc hStat]
  cases henv : env.resources with
  | none => rw [henv] at hres; simp [resPositive] at hres
  | some t =>
    obtain ⟨crtcs, connectors, encoders⟩ := t
    rw [henv] at hres
    simp only [resPositive, Bool.and_eq_true, decide_eq_true_eq] at hres
    dsimp only
    rw [if_neg (by
      simp only [Bool.or_eq_true, decide_eq_true_eq, not_or, Int.not_le]
      exact ⟨⟨hres.1.1, hres.1.2⟩, hres.2⟩)]
    rw [if_neg (Int.not_le.mpr hOut)]

theorem device_is_kms_accept_replace (devices : List Device) (p : String)
    (env : KmsEnv) (fdOut : Int) (rdev : Nat)
    (hAlloc : env.openEnv.allocOk = true)
    (hStat : env.openEnv.statResult = some rdev)
    (hfd : 0 ≤ env.openEnv.backendFd)
    (hres : resPositive env.resources = true)
    (hOut : 0 ≤ fdOut)
    (hFresh : env.openEnv.backendFd ≠ fdOut)
    (hReg : ∃ d ∈ devices, d.fd = fdOut) :
    device_is_kms devices (some p) env fdOut =
      ⟨true, env.openEnv.backendFd,
        ⟨env.openEnv.backendFd, rdev⟩ :: removeDevice devices fdOut,
        [fdOut], false⟩ := by
  simp only [device_is_kms, open_file_ret]
  rw [if_neg (Int.not_lt.mpr hfd),
    open_file_devices_of_ok devices p env.openEnv rdev hfd hAlloc hStat]
  cases henv : env.resources with
  | none => rw [henv] at hres; simp [resPositive] at hres
  | some t =>
    obtain ⟨crtcs, connectors, encoders⟩ := t
    rw [henv] at hres
    simp only [resPositive, Bool.and_eq_true, decide_eq_true_eq] at hres
    dsimp only
    rw [if_neg (by
      simp only [Bool.or_eq_true, decide_eq_true_eq, not_or, Int.not_le]
      exact ⟨⟨hres.1.1, hres.1.2⟩, hres.2⟩)]
    rw [if_pos hOut,
      closeThrough_cons_ne ⟨env.openEnv.backendFd, rdev⟩ devices fdOut hFresh hReg]

theorem probe_backends_fst (ok : BackendImpl → Bool) (l : List BackendImpl) :
    (probe_backends ok l).1 = l.find? ok := by
  induction l with
  | nil => rfl
  | cons b bs ih =>
    by_cases h : ok b
    · simp [probe_backends, h, List.find?_cons_of_pos _ h]
    · simp [probe_backends, h, List.find?_cons_of_neg _ h, ih]

theorem probe_backends_snd (ok : BackendImpl → Bool) (l : List BackendImpl) :
    (probe_backends ok l).2 =
      l.takeWhile (fun b => !ok b) ++
        (l.dropWhile (fun b => !ok b)).take 1 := by
  induction l with
  | nil => rfl
  | cons b bs ih =>
    by_cases h : ok b
    · simp [probe_backends, h, List.takeWhile_cons, List.dropWhile_cons]
    · simp [probe_backends, h, List.takeWhile_cons, List.dropWhile_cons, ih]

theorem gpu_step_devices_mem (s : GpuLoopResult) (c : Candidate) (d : Device)
    (h : d ∈ (gpu_step s c).devices) :
    d ∈ s.devices ∨
      (d.fd = c.kms.openEnv.backendFd ∧
        c.kms.openEnv.statResult = some d.dev) := by
  simp only [gpu_step] at h
  split at h
  · exact Or.inl h
  · split at h
    · exact Or.inl h
    · split at h
      · exact Or.inl h
      · have hmem : d ∈ (device_is_kms s.devices c.devnode c.kms s.fd).devices := by
          split at h
          · exact h
          · split at h
            · exact h
            · split at h
              · exact h
              · exact h
        exact device_is_kms_devices_mem s.devices c.devnode c.kms s.fd d hmem

theorem foldl_gpu_devices_mem (cs : List Candidate) :
    ∀ (s : GpuLoopResult) (d : Device), d ∈ (cs.foldl gpu_step s).devices →
      d ∈ s.devices ∨ ∃ c ∈ cs,
        d.fd = c.kms.openEnv.backendFd ∧
          c.kms.openEnv.statResult = some d.dev := by
  induction cs with
  | nil => intro s d h; exact Or.inl h
  | cons c cs ih =>
    intro s d h
    rcases ih (gpu_step s c) d h with h' | ⟨c', hc', hp⟩
    · rcases gpu_step_devices_mem s c d h' with h'' | hp
      · exact Or.inl h''
      · exact Or.inr ⟨c, List.mem_cons_self c cs, hp⟩
    · exact Or.inr ⟨c', List.mem_cons_of_mem c hc', hp⟩

theorem close_file_ok_exists (devices : List Device) (fd : Int)
    (ds : List Device) (h : wlr_session_close_file devices fd = .ok ds) :
    ∃ d ∈ devices, d.fd = fd := by
  unfold wlr_session_close_file at h
  cases hf : find_device devices fd with
  | none => rw [hf] at h; cases h
  | some d =>
    have hm := find_device_mem devices fd d hf
    exact ⟨d, hm.1, hm.2⟩

theorem runStep_preserves (s : RunState) (op : Op)
    (h : s.wellBehaved = true → s.fatal = false → RunInv s) :
    (runStep s op).wellBehaved = true → (runStep s op).fatal = false →
    RunInv (runStep s op) := by
  cases op with
  | openF path env =>
    by_cases hf : s.fatal
    · simp only [runStep, if_pos hf]
      exact h
    · simp only [runStep, if_neg hf]
      by_cases hret : (wlr_session_open_file s.devices path env).ret < 0
      · rw [if_pos hret]
        intro hw hf2
        have hbf : env.backendFd < 0 := by
          rw [← open_file_ret s.devices path env]; exact hret
        have hdev := open_file_devices_of_backend_fail s.devices path env hbf
        have hrec : ({s with devices :=
            (wlr_session_open_file s.devices path env).devices} : RunState) = s := by
          rw [hdev]
        rw [hrec]
        exact h hw hf2
      · rw [if_neg hret]
        intro hw hf2
        have hw' : ((s.wellBehaved = true ∧
            (!s.handedOut.contains (wlr_session_open_file s.devices path env).ret)
              = true) ∧ env.allocOk = true) ∧ env.statResult.isSome = true := by
          simpa only [Bool.and_eq_true] using hw
        obtain ⟨⟨⟨hwb, hfresh⟩, halloc⟩, hstat⟩ := hw'
        have hf0 : s.fatal = false := by simpa using hf
        obtain ⟨rdev, hrdev⟩ := Option.isSome_iff_exists.mp hstat
        have hbf : 0 ≤ env.backendFd := by
          rw [← open_file_ret s.devices path env]; exact Int.not_lt.mp hret
        have hdev := open_file_devices_of_ok s.devices path env rdev hbf halloc hrdev
        have hreq := open_file_ret s.devices path env
        have hmemfr : env.backendFd ∉ s.handedOut := by
          rw [← hreq]
          simpa using hfresh
        obtain ⟨I1, I2, I3, I4, I5⟩ := h hwb hf0
        have hnotreg : env.backendFd ∉ s.devices.map Device.fd := by
          intro hc
          exact hmemfr ((I3 env.backendFd).mp hc).1
        have hnotclosed : env.backendFd ∉ s.closedFds := by
          intro hc
          exact hmemfr (I5 env.backendFd hc)
        unfold RunInv
        dsimp only
        rw [hdev, hreq]
        refine ⟨?_, ?_, ?_, ?_, ?_⟩
        · simp only [List.length_cons]
          omega
        · simp only [List.map_cons]
          exact List.nodup_cons.mpr ⟨hnotreg, I2⟩
        · intro f
          simp only [List.map_cons, List.mem_cons]
          constructor
          · rintro (hfe | hfm)
            · subst hfe
              exact ⟨List.mem_append_right _ (List.mem_singleton.mpr rfl),
                hnotclosed⟩
            · obtain ⟨hh, hnc⟩ := (I3 f).mp hfm
              exact ⟨List.mem_append_left _ hh, hnc⟩
          · rintro ⟨hmem2, hnc⟩
            rcases List.mem_append.mp hmem2 with hh | hh
            · exact Or.inr ((I3 f).mpr ⟨hh, hnc⟩)
            · exact Or.inl (List.mem_singleton.mp hh)
        · simp [List.nodup_append, I4, hmemfr]
        · intro f hfc
          exact List.mem_append_left _ (I5 f hfc)
  | closeF fd =>
    by_cases hf : s.fatal
    · simp only [runStep, if_pos hf]
      exact h
    · simp only [runStep, if_neg hf]
      cases hc : wlr_session_close_file s.devices fd with
      | error e =>
        intro _ hf2
        simp at hf2
      | ok ds =>
        intro hw hf2
        have hdseq := close_file_ok s.devices fd ds hc
        have hex := close_file_ok_exists s.devices fd ds hc
        have hf0 : s.fatal = false := by simpa using hf
        have hwb : s.wellBehaved = true := hw
        obtain ⟨I1, I2, I3, I4, I5⟩ := h hwb hf0
        have hfdmem : fd ∈ s.devices.map Device.fd := by
          obtain ⟨d, hd, hdfd⟩ := hex
          exact hdfd ▸ List.mem_map_of_mem Device.fd hd
        have hfdhand : fd ∈ s.handedOut := ((I3 fd).mp hfdmem).1
        subst hdseq
        unfold RunInv
        dsimp only
        refine ⟨?_, ?_, ?_, I4, ?_⟩
        · have := removeDevice_length s.devices fd hex
          omega
        · exact I2.sublist ((removeDevice_sublist s.devices fd).map Device.fd)
        · intro f
          rw [removeDevice_map_fd s.devices fd I2 f]
          constructor
          · rintro ⟨hfm, hne⟩
            obtain ⟨hh, hnc⟩ := (I3 f).mp hfm
            refine ⟨hh, ?_⟩
            intro hcc
            rcases List.mem_append.mp hcc with hcc | hcc
            · exact hnc hcc
            · exact hne (List.mem_singleton.mp hcc)
          · rintro ⟨hh, hnc⟩
            have hnc1 : f ∉ s.closedFds :=
              fun hcc => hnc (List.mem_append_left _ hcc)
            have hne : f ≠ fd := by
              intro hfe
              exact hnc (List.mem_append_right _ (by simp [hfe]))
            exact ⟨(I3 f).mpr ⟨hh, hnc1⟩, hne⟩
        · intro f hfc
          rcases List.mem_append.mp hfc with hcc | hcc
          · exact I5 f hcc
          · rw [List.mem_singleton.mp hcc]
            exact hfdhand

theorem runOps_aux (ops : List Op) : ∀ s : RunState,
    (s.wellBehaved = true → s.fatal = false → RunInv s) →
    (ops.foldl runStep s).wellBehaved = true →
    (ops.foldl runStep s).fatal = false →
    RunInv (ops.foldl runStep s) := by
  induction ops with
  | nil => intro s h; exact h
  | cons op ops ih =>
    intro s h
    exact ih (runStep s op) (runStep_preserves s op h)

theorem initState_inv : RunInv initState := by
  unfold RunInv initState
  refine ⟨rfl, List.nodup_nil, ?_, List.nodup_nil, ?_⟩ <;> simp

theorem gpu_step_halt (s : GpuLoopResult) (c : Candidate)
    (h : (s.broke || s.fatal) = true) : gpu_step s c = s := by
  unfold gpu_step
  rw [if_pos h]

theorem foldl_gpu_halt (cs : List Candidate) : ∀ s : GpuLoopResult,
    (s.broke || s.fatal) = true → cs.foldl gpu_step s = s := by
  induction cs with
  | nil => intro s _; rfl
  | cons c cs ih =>
    intro s h
    rw [List.foldl_cons, gpu_step_halt s c h]
    exact ih s h

theorem gpu_step_unresolvable (s : GpuLoopResult) (c : Candidate)
    (hbr : s.broke = false) (hfa : s.fatal = false)
    (hres : c.resolvable = false) :
    gpu_step s c = { s with examined := s.examined ++ [c] } := by
  unfold gpu_step
  rw [if_neg (by simp [hbr, hfa]), if_pos (by simp [hres])]

theorem gpu_step_skip (s : GpuLoopResult) (c : Candidate)
    (hbr : s.broke = false) (hfa : s.fatal = false)
    (hres : c.resolvable = true) (hcb : c.bootVga = false) (hfd : 0 ≤ s.fd) :
    gpu_step s c = { s with examined := s.examined ++ [c] } := by
  unfold gpu_step
  rw [if_neg (by simp [hbr, hfa]), if_neg (by simp [hres]),
    if_pos (by simp [hcb, hfd])]

theorem gpu_step_probe_fatal (s : GpuLoopResult) (c : Candidate)
    (hbr : s.broke = false) (hfa : s.fatal = false)
    (hres : c.resolvable = true)
    (hcond : ¬((!c.bootVga && decide (0 ≤ s.fd)) = true))
    (hkf : (device_is_kms s.devices c.devnode c.kms s.fd).fatal = true) :
    gpu_step s c = { s with
      fd := (device_is_kms s.devices c.devnode c.kms s.fd).fdOut,
      devices := (device_is_kms s.devices c.devnode c.kms s.fd).devices,
      closedFds := s.closedFds ++
        (device_is_kms s.devices c.devnode c.kms s.fd).closedFds,
      examined := s.examined ++ [c], probed := s.probed ++ [c],
      fatal := true } := by
  unfold gpu_step
  rw [if_neg (by simp [hbr, hfa]), if_neg (by simp [hres]), if_neg hcond]
  dsimp only
  rw [if_pos hkf]

theorem gpu_step_probe_reject (s : GpuLoopResult) (c : Candidate)
    (hbr : s.broke = false) (hfa : s.fatal = false)
    (hres : c.resolvable = true)
    (hcond : ¬((!c.bootVga && decide (0 ≤ s.fd)) = true))
    (hkf : (device_is_kms s.devices c.devnode c.kms s.fd).fatal = false)
    (hka : (device_is_kms s.devices c.devnode c.kms s.fd).accepted = false) :
    gpu_step s c = { s with
      fd := (device_is_kms s.devices c.devnode c.kms s.fd).fdOut,
      devices := (device_is_kms s.devices c.devnode c.kms s.fd).devices,
      closedFds := s.closedFds ++
        (device_is_kms s.devices c.devnode c.kms s.fd).closedFds,
      examined := s.examined ++ [c], probed := s.probed ++ [c] } := by
  unfold gpu_step
  rw [if_neg (by simp [hbr, hfa]), if_neg (by simp [hres]), if_neg hcond]
  dsimp only
  rw [if_neg (by simp [hkf]), if_pos (by simp [hka])]

theorem gpu_step_probe_accept_boot (s : GpuLoopResult) (c : Candidate)
    (hbr : s.broke = false) (hfa : s.fatal = false)
    (hres : c.resolvable = true)
    (hcond : ¬((!c.bootVga && decide (0 ≤ s.fd)) = true))
    (hkf : (device_is_kms s.devices c.devnode c.kms s.fd).fatal = false)
    (hka : (device_is_kms s.devices c.devnode c.kms s.fd).accepted = true)
    (hcb : c.bootVga = true) :
    gpu_step s c = { s with
      fd := (device_is_kms s.devices c.devnode c.kms s.fd).fdOut,
      devices := (device_is_kms s.devices c.devnode c.kms s.fd).devices,
      closedFds := s.closedFds ++
        (device_is_kms s.devices c.devnode c.kms s.fd).closedFds,
      examined := s.examined ++ [c], probed := s.probed ++ [c],
      broke := true } := by
  unfold gpu_step
  rw [if_neg (by simp [hbr, hfa]), if_neg (by simp [hres]), if_neg hcond]
  dsimp only
  rw [if_neg (by simp [hkf]), if_neg (by simp [hka]), if_pos hcb]

theorem gpu_step_probe_accept_nonboot (s : GpuLoopResult) (c : Candidate)
    (hbr : s.broke = false) (hfa : s.fatal = false)
    (hres : c.resolvable = true)
    (hcond : ¬((!c.bootVga && decide (0 ≤ s.fd)) = true))
    (hkf : (device_is_kms s.devices c.devnode c.kms s.fd).fatal = false)
    (hka : (device_is_kms s.devices c.devnode c.kms s.fd).accepted = true)
    (hcb : c.bootVga = false) :
    gpu_step s c = { s with
      fd := (device_is_kms s.devices c.devnode c.kms s.fd).fdOut,
      devices := (device_is_kms s.devices c.devnode c.kms s.fd).devices,
      closedFds := s.closedFds ++
        (device_is_kms s.devices c.devnode c.kms s.fd).closedFds,
      examined := s.examined ++ [c], probed := s.probed ++ [c] } := by
  unfold gpu_step
  rw [if_neg (by simp [hbr, hfa]), if_neg (by simp [hres]), if_neg hcond]
  dsimp only
  rw [if_neg (by simp [hkf]), if_neg (by simp [hka]), if_neg (by simp [hcb])]

theorem device_is_kms_accepted_cand (devices : List Device) (fd : Int)
    (c : Candidate) :
    (device_is_kms devices c.devnode c.kms fd).accepted = kms_capable c := by
  rw [device_is_kms_accepted]
  rfl

theorem eligibleCand_resolvable (c : Candidate) (h : eligibleCand c = true) :
    c.resolvable = true :=
  ((Bool.and_eq_true _ _).mp h).1

theorem eligibleCand_kms (c : Candidate) (h : eligibleCand c = true) :
    kms_capable c = true :=
  ((Bool.and_eq_true _ _).mp h).2

theorem eligibleCand_fd_nonneg (c : Candidate) (h : eligibleCand c = true) :
    0 ≤ candFd c := by
  have h2 := eligibleCand_kms c h
  unfold kms_capable at h2
  simp only [Bool.and_eq_true, decide_eq_true_eq] at h2
  exact h2.1.2

theorem gpu_step_fd_nonneg (s : GpuLoopResult) (c : Candidate)
    (h : 0 ≤ s.fd) : 0 ≤ (gpu_step s c).fd := by
  simp only [gpu_step]
  split
  · exact h
  · split
    · exact h
    · split
      · exact h
      · split
        · exact device_is_kms_fdOut_nonneg _ _ _ _ h
        · split
          · exact device_is_kms_fdOut_nonneg _ _ _ _ h
          · split
            · exact device_is_kms_fdOut_nonneg _ _ _ _ h
            · exact device_is_kms_fdOut_nonneg _ _ _ _ h

theorem foldl_gpu_fd_nonneg (cs : List Candidate) : ∀ s : GpuLoopResult,
    0 ≤ s.fd → 0 ≤ (cs.foldl gpu_step s).fd := by
  induction cs with
  | nil => intro s h; exact h
  | cons c cs ih =>
    intro s h
    rw [List.foldl_cons]
    exact ih (gpu_step s c) (gpu_step_fd_nonneg s c h)

theorem gpu_step_probed_cases (s : GpuLoopResult) (c : Candidate) :
    (gpu_step s c).probed = s.probed ∨
      ((gpu_step s c).probed = s.probed ++ [c] ∧
        (c.bootVga = true ∨ s.fd < 0)) := by
  simp only [gpu_step]
  split
  · exact Or.inl rfl
  · split
    · exact Or.inl rfl
    · split
      · exact Or.inl rfl
      · rename_i h2 h3
        have hside : c.bootVga = true ∨ s.fd < 0 := by
          by_cases hcb : c.bootVga
          · exact Or.inl hcb
          · right
            by_contra hfd
            apply h3
            have hcb' : c.bootVga = false := by simpa using hcb
            simp [hcb', Int.not_lt.mp hfd]
        split
        · exact Or.inr ⟨rfl, hside⟩
        · split
          · exact Or.inr ⟨rfl, hside⟩
          · split
            · exact Or.inr ⟨rfl, hside⟩
            · exact Or.inr ⟨rfl, hside⟩

theorem foldl_gpu_probed_boot (cs : List Candidate) : ∀ s : GpuLoopResult,
    0 ≤ s.fd → ∀ x ∈ (cs.foldl gpu_step s).probed,
      x ∈ s.probed ∨ x.bootVga = true := by
  induction cs with
  | nil => intro s _ x hx; exact Or.inl hx
  | cons c cs ih =>
    intro s hfd x hx
    rw [List.foldl_cons] at hx
    rcases ih (gpu_step s c) (gpu_step_fd_nonneg s c hfd) x hx with h | h
    · rcases gpu_step_probed_cases s c with hp | ⟨hp, hside⟩
      · rw [hp] at h
        exact Or.inl h
      · rw [hp] at h
        rcases List.mem_append.mp h with h' | h'
        · exact Or.inl h'
        · have hxc : x = c := List.mem_singleton.mp h'
          subst hxc
          rcases hside with hb | hneg
          · exact Or.inr hb
          · exact absurd hfd (Int.not_le.mpr hneg)
    · exact Or.inr h

theorem specLoopFd_cons_skip (c : Candidate) (cs : List Candidate) (fd : Int)
    (h : eligibleCand c = false) :
    specLoopFd (c :: cs) fd = specLoopFd cs fd := by
  unfold specLoopFd
  rw [List.find?_cons_of_neg _ (by simp [h]),
    List.find?_cons_of_neg _ (by simp [h])]

theorem specLoopFd_cons_skip_nonboot (c : Candidate) (cs : List Candidate)
    (fd : Int) (hb : c.bootVga = false) (hfd : 0 ≤ fd) :
    specLoopFd (c :: cs) fd = specLoopFd cs fd := by
  unfold specLoopFd
  rw [List.find?_cons_of_neg _ (by simp [hb])]
  cases h1 : cs.find? (fun c => eligibleCand c && c.bootVga) with
  | some b => rfl
  | none =>
    dsimp only
    rw [if_pos hfd, if_pos hfd]

theorem specLoopFd_cons_accept_nonboot (c : Candidate) (cs : List Candidate)
    (fd : Int) (he : eligibleCand c = true) (hb : c.bootVga = false)
    (hfd : fd < 0) :
    specLoopFd (c :: cs) fd = specLoopFd cs (candFd c) := by
  unfold specLoopFd
  rw [List.find?_cons_of_neg _ (by simp [hb])]
  cases h1 : cs.find? (fun c => eligibleCand c && c.bootVga) with
  | some b => rfl
  | none =>
    dsimp only
    rw [if_neg (Int.not_le.mpr hfd), if_pos (eligibleCand_fd_nonneg c he),
      List.find?_cons_of_pos _ he]

theorem specLoopFd_cons_boot_accept (c : Candidate) (cs : List Candidate)
    (fd : Int) (he : eligibleCand c = true) (hb : c.bootVga = true) :
    specLoopFd (c :: cs) fd = candFd c := by
  unfold specLoopFd
  rw [List.find?_cons_of_pos _ (by simp [he, hb])]

theorem foldl_gpu_fd_char (cs : List Candidate) : ∀ s : GpuLoopResult,
    s.broke = false → s.fatal = false →
    (cs.foldl gpu_step s).fatal = false →
    (cs.foldl gpu_step s).fd = specLoopFd cs s.fd := by
  induction cs with
  | nil =>
    intro s _ _ _
    simp only [List.foldl_nil, specLoopFd, List.find?_nil]
    split <;> rfl
  | cons c cs ih =>
    intro s hbr hfa hfinal
    rw [List.foldl_cons] at hfinal ⊢
    have hacck := device_is_kms_accepted_cand s.devices s.fd c
    by_cases hres : c.resolvable
    case neg =>
      have hres' : c.resolvable = false := by simpa using hres
      have hstep := gpu_step_unresolvable s c hbr hfa hres'
      rw [hstep] at hfinal ⊢
      have he : eligibleCand c = false := by simp [eligibleCand, hres']
      rw [specLoopFd_cons_skip c cs s.fd he]
      exact ih _ hbr hfa hfinal
    case pos =>
      by_cases hcb : c.bootVga
      case pos =>
        have hcond : ¬((!c.bootVga && decide (0 ≤ s.fd)) = true) := by
          simp [hcb]
        by_cases hkf : (device_is_kms s.devices c.devnode c.kms s.fd).fatal
        · have hstep := gpu_step_probe_fatal s c hbr hfa hres hcond hkf
          rw [hstep, foldl_gpu_halt cs _ (by simp)] at hfinal
          simp at hfinal
        · have hkf' : (device_is_kms s.devices c.devnode c.kms s.fd).fatal
              = false := by simpa using hkf
          by_cases hka : (device_is_kms s.devices c.devnode c.kms s.fd).accepted
          · have hstep :=
              gpu_step_probe_accept_boot s c hbr hfa hres hcond hkf' hka hcb
            rw [hstep, foldl_gpu_halt cs _ (by simp)]
            have he : eligibleCand c = true := by
              simp only [eligibleCand, hres, Bool.true_and]
              rw [← hacck]
              exact hka
            rw [specLoopFd_cons_boot_accept c cs s.fd he hcb]
            have hfdeq : (device_is_kms s.devices c.devnode c.kms s.fd).fdOut
                = candFd c := by
              rw [device_is_kms_fdOut, if_pos hka]
              rfl
            exact hfdeq
          · have hka' : (device_is_kms s.devices c.devnode c.kms s.fd).accepted
                = false := by simpa using hka
            have hstep :=
              gpu_step_probe_reject s c hbr hfa hres hcond hkf' hka'
            have hfdeq : (device_is_kms s.devices c.devnode c.kms s.fd).fdOut
                = s.fd := by
              rw [device_is_kms_fdOut, if_neg (by simp [hka'])]
            rw [hfdeq] at hstep
            rw [hstep] at hfinal ⊢
            have he : eligibleCand c = false := by
              simp only [eligibleCand, hres, Bool.true_and]
              rw [← hacck]
              exact hka'
            rw [specLoopFd_cons_skip c cs s.fd he]
            exact ih _ hbr hfa hfinal
      case neg =>
        have hcb' : c.bootVga = false := by simpa using hcb
        by_cases hfd : 0 ≤ s.fd
        · have hstep := gpu_step_skip s c hbr hfa hres hcb' hfd
          rw [hstep] at hfinal ⊢
          rw [specLoopFd_cons_skip_nonboot c cs s.fd hcb' hfd]
          exact ih _ hbr hfa hfinal
        · have hfdneg : s.fd < 0 := Int.not_le.mp hfd
          have hcond : ¬((!c.bootVga && decide (0 ≤ s.fd)) = true) := by
            simp [hfd]
          by_cases hkf : (device_is_kms s.devices c.devnode c.kms s.fd).fatal
          · have hstep := gpu_step_probe_fatal s c hbr hfa hres hcond hkf
            rw [hstep, foldl_gpu_halt cs _ (by simp)] at hfinal
            simp at hfinal
          · have hkf' : (device_is_kms s.devices c.devnode c.kms s.fd).fatal
                = false := by simpa using hkf
            by_cases hka :
                (device_is_kms s.devices c.devnode c.kms s.fd).accepted
            · have hstep := gpu_step_probe_accept_nonboot s c hbr hfa hres
                hcond hkf' hka hcb'
              have he : eligibleCand c = true := by
                simp only [eligibleCand, hres, Bool.true_and]
                rw [← hacck]
                exact hka
              have hfdeq : (device_is_kms s.devices c.devnode c.kms s.fd).fdOut
                  = candFd c := by
                rw [device_is_kms_fdOut, if_pos hka]
                rfl
              rw [hfdeq] at hstep
              rw [hstep] at hfinal ⊢
              rw [specLoopFd_cons_accept_nonboot c cs s.fd he hcb' hfdneg]
              exact ih _ hbr hfa hfinal
            · have hka' :
                  (device_is_kms s.devices c.devnode c.kms s.fd).accepted
                    = false := by simpa using hka
              have hstep :=
                gpu_step_probe_reject s c hbr hfa hres hcond hkf' hka'
              have hfdeq : (device_is_kms s.devices c.devnode c.kms s.fd).fdOut
                  = s.fd := by
                rw [device_is_kms_fdOut, if_neg (by simp [hka'])]
              rw [hfdeq] at hstep
              rw [hstep] at hfinal ⊢
              have he : eligibleCand c = false := by
                simp only [eligibleCand, hres, Bool.true_and]
                rw [← hacck]
                exact hka'
              rw [specLoopFd_cons_skip c cs s.fd he]
              exact ih _ hbr hfa hfinal

/-! ## Claim theorems -/

/-- C1 (amended): when the backend open fails, its negative result is
returned unchanged and nothing else happens; when the backend open succeeds
but allocation or fstat fails, `wlr_session_open_file` leaves the registry
unchanged (the partially built entry is freed), does not close the
already-opened fd, inserts nothing — but it returns the backend's fd
unchanged, a non-negative value, so the failure is *not* reported to the
caller as a negative result. -/
theorem claim_C1 (devices : List Device) (path : String) (env : OpenEnv) :
    (env.backendFd < 0 →
      wlr_session_open_file devices path env = ⟨env.backendFd, devices, false⟩) ∧
    (0 ≤ env.backendFd → (env.allocOk = false ∨ env.statResult = none) →
      (wlr_session_open_file devices path env).ret = env.backendFd ∧
      0 ≤ (wlr_session_open_file devices path env).ret ∧
      (wlr_session_open_file devices path env).devices = devices ∧
      (wlr_session_open_file devices path env).fdClosed = false) := by
  constructor
  · intro h
    unfold wlr_session_open_file
    simp [h]
  · intro hfd hbad
    refine ⟨open_file_ret devices path env, ?_, ?_, open_file_fdClosed devices path env⟩
    · rw [open_file_ret]; exact hfd
    · rcases hbad with h | h
      · exact open_file_devices_of_alloc_fail devices path env h
      · exact open_file_devices_of_stat_fail devices path env h

/-- C1 witness: a concrete alloc-failure call through `claim_C1`. -/
theorem claim_C1_witness :
    (wlr_session_open_file [] "/dev/dri/card0" ⟨3, false, some 7⟩).devices = [] ∧
    0 ≤ (wlr_session_open_file [] "/dev/dri/card0" ⟨3, false, some 7⟩).ret := by
  have h := (claim_C1 [] "/dev/dri/card0" ⟨3, false, some 7⟩).2
    (by decide) (Or.inl rfl)
  exact ⟨h.2.2.1, h.2.1⟩

/-- C1 counterexample: with a successful backend open (fd 5) and a failing
fstat, `wlr_session_open_file` returns 5 — a valid, non-negative fd — so the
claim that the caller receives a negative/failure result is false. -/
theorem claim_C1_counterexample :
    (wlr_session_open_file [] "/dev/dri/card0" ⟨5, true, none⟩).ret = 5 ∧
    ¬((wlr_session_open_file [] "/dev/dri/card0" ⟨5, true, none⟩).ret < 0) ∧
    (wlr_session_open_file [] "/dev/dri/card0" ⟨5, true, none⟩).devices = [] ∧
    (wlr_session_open_file [] "/dev/dri/card0" ⟨5, true, none⟩).fdClosed = false := by
  refine ⟨rfl, by decide, rfl, rfl⟩

/-- C2: the claim is right and the code is wrong.  `wlr_session_destroy` is
a no-op on a null session and tears a live session down in reverse
acquisition order, but on the rollback path where the udev context was
created and monitor creation then fails, the `goto` chain unrefs the udev
context once and then delegates to `wlr_session_destroy`, which unrefs it a
second time and also removes an event source that was never registered: the
acquired-exactly-once→released-exactly-once property the claim states does
not hold. -/
theorem claim_C2 :
    wlr_session_destroy false = [] ∧
    wlr_session_destroy true =
      [Rel.eventSourceRemove, Rel.monUnref, Rel.udevUnref, Rel.backendDestroy] ∧
    acquiredUdev ⟨true, true, false, true⟩ = true ∧
    acquiredMon ⟨true, true, false, true⟩ = false ∧
    acquiredEventSource ⟨true, true, false, true⟩ = false ∧
    (wlr_session_create ⟨true, true, false, true⟩).1 = none ∧
    (wlr_session_create ⟨true, true, false, true⟩).2.count Rel.udevUnref = 2 ∧
    (wlr_session_create ⟨true, true, false, true⟩).2.count Rel.eventSourceRemove = 1 ∧
    (wlr_session_create ⟨true, true, false, true⟩).2.count Rel.monUnref = 1 := by
  decide

/-- C3 (amended): for every trace of open_file/close_file calls from a fresh
session in which every successful backend open also completes its allocation
and fstat, every handed-out fd is fresh, and no close hits the fatal path,
the registry size equals the number of valid opens minus the number of
completed closes, every registry entry's fd was handed out by some open, and
the registry entries are in 1:1 correspondence with the live fds (handed out
and not closed).  Without the well-behavedness condition the claim fails: an
alloc/stat failure inside open_file hands out an fd with no registry
entry (see the counterexample). -/
theorem claim_C3 (ops : List Op)
    (hw : (runOps ops).wellBehaved = true)
    (hfa : (runOps ops).fatal = false) :
    (runOps ops).devices.length + (runOps ops).closes = (runOps ops).succOpens ∧
    (∀ d ∈ (runOps ops).devices, d.fd ∈ (runOps ops).handedOut) ∧
    ((runOps ops).devices.map Device.fd).Nodup ∧
    (∀ f : Int, f ∈ (runOps ops).devices.map Device.fd ↔
      f ∈ (runOps ops).handedOut ∧ f ∉ (runOps ops).closedFds) := by
  obtain ⟨I1, I2, I3, I4, I5⟩ :=
    runOps_aux ops initState (fun _ _ => initState_inv) hw hfa
  refine ⟨I1, ?_, I2, I3⟩
  intro d hd
  exact ((I3 d.fd).mp (List.mem_map_of_mem Device.fd hd)).1

/-- C3 witness: a concrete well-behaved trace (open fd 5, open fd 6, close
fd 5) through `claim_C3`. -/
theorem claim_C3_witness :
    (runOps [Op.openF ("/dev/a") ⟨5, true, some 1⟩,
      Op.openF ("/dev/b") ⟨6, true, some 2⟩, Op.closeF 5]).devices.length +
      (runOps [Op.openF ("/dev/a") ⟨5, true, some 1⟩,
        Op.openF ("/dev/b") ⟨6, true, some 2⟩, Op.closeF 5]).closes =
      (runOps [Op.openF ("/dev/a") ⟨5, true, some 1⟩,
        Op.openF ("/dev/b") ⟨6, true, some 2⟩, Op.closeF 5]).succOpens :=
  (claim_C3 [Op.openF ("/dev/a") ⟨5, true, some 1⟩,
    Op.openF ("/dev/b") ⟨6, true, some 2⟩, Op.closeF 5]
    (by decide) (by decide)).1

/-- C3 counterexample: one open whose backend open succeeds (fd 5) but whose
fstat fails — the fd is handed out (counted as a successful open), yet the
registry is empty: the size equation (0 vs 1 − 0) and the 1:1 fd/entry
correspondence the claim states both fail. -/
theorem claim_C3_counterexample :
    (runOps [Op.openF ("/dev/dri/card0") ⟨5, true, none⟩]).handedOut = [5] ∧
    (runOps [Op.openF ("/dev/dri/card0") ⟨5, true, none⟩]).succOpens = 1 ∧
    (runOps [Op.openF ("/dev/dri/card0") ⟨5, true, none⟩]).closes = 0 ∧
    (runOps [Op.openF ("/dev/dri/card0") ⟨5, true, none⟩]).devices = [] ∧
    ¬∃ d ∈ (runOps [Op.openF ("/dev/dri/card0") ⟨5, true, none⟩]).devices,
      d.fd = 5 := by
  decide

/-- C4: GPU discovery returns -1 when enumeration setup fails; otherwise (in
runs that do not abort) it returns the fd of the first KMS-capable boot-VGA
candidate when one exists, else the fd of the first KMS-capable candidate in
enumeration order, else -1 (`specLoopFd` with initial fd -1); once a
KMS-capable fd has been accepted (fd ≥ 0 after a prefix of the enumeration),
every candidate probed afterwards is boot-VGA — non-boot-VGA candidates are
skipped without probing; and after an accepted boot-VGA candidate the loop
stops: no later candidate is even examined. -/
theorem claim_C4 :
    (∀ (devices : List Device) (env : GpuEnv), env.enumerateOk = false →
      (wlr_session_find_gpu devices env).fd = -1) ∧
    (∀ (devices : List Device) (env : GpuEnv), env.enumerateOk = true →
      (wlr_session_find_gpu devices env).fatal = false →
      (wlr_session_find_gpu devices env).fd =
        specLoopFd env.candidates (-1)) ∧
    (∀ (devices : List Device) (xs ys : List Candidate),
      0 ≤ (find_gpu_loop devices (-1) xs).fd →
      ∀ c ∈ (find_gpu_loop devices (-1) (xs ++ ys)).probed,
        c ∈ (find_gpu_loop devices (-1) xs).probed ∨ c.bootVga = true) ∧
    (∀ (devices : List Device) (xs : List Candidate) (c : Candidate)
        (ys : List Candidate),
      (find_gpu_loop devices (-1) xs).broke = false →
      (find_gpu_loop devices (-1) xs).fatal = false →
      eligibleCand c = true → c.bootVga = true →
      (find_gpu_loop devices (-1) (xs ++ c :: ys)).examined =
        (find_gpu_loop devices (-1) xs).examined ++ [c]) := by
  refine ⟨?_, ?_, ?_, ?_⟩
  · intro devices env h
    unfold wlr_session_find_gpu
    rw [if_pos (by simp [h])]
  · intro devices env hok hfat
    unfold wlr_session_find_gpu at hfat ⊢
    rw [if_neg (by simp [hok])] at hfat ⊢
    exact foldl_gpu_fd_char env.candidates ⟨-1, devices, [], [], [], false, false⟩
      rfl rfl hfat
  · intro devices xs ys hfd c hc
    unfold find_gpu_loop at hfd hc ⊢
    rw [List.foldl_append] at hc
    exact foldl_gpu_probed_boot ys _ hfd c hc
  · intro devices xs c ys hbr hfa he hcb
    unfold find_gpu_loop at hbr hfa ⊢
    rw [List.foldl_append, List.foldl_cons]
    have hres := eligibleCand_resolvable c he
    have hk := eligibleCand_kms c he
    have hcond : ¬((!c.bootVga &&
        decide (0 ≤ (xs.foldl gpu_step
          ⟨-1, devices, [], [], [], false, false⟩).fd)) = true) := by
      simp [hcb]
    have hacck := device_is_kms_accepted_cand
      (xs.foldl gpu_step ⟨-1, devices, [], [], [], false, false⟩).devices
      (xs.foldl gpu_step ⟨-1, devices, [], [], [], false, false⟩).fd c
    by_cases hkf : (device_is_kms
        (xs.foldl gpu_step ⟨-1, devices, [], [], [], false, false⟩).devices
        c.devnode c.kms
        (xs.foldl gpu_step ⟨-1, devices, [], [], [], false, false⟩).fd).fatal
    · have hstep := gpu_step_probe_fatal _ c hbr hfa hres hcond hkf
      rw [hstep, foldl_gpu_halt ys _ (by simp)]
    · have hkf' := (Bool.not_eq_true _).mp hkf
      have hka : (device_is_kms
          (xs.foldl gpu_step ⟨-1, devices, [], [], [], false, false⟩).devices
          c.devnode c.kms
          (xs.foldl gpu_step
            ⟨-1, devices, [], [], [], false, false⟩).fd).accepted = true := by
        rw [hacck]
        exact hk
      have hstep := gpu_step_probe_accept_boot _ c hbr hfa hres hcond
        hkf' hka hcb
      rw [hstep, foldl_gpu_halt ys _ (by simp)]

/-- C4 witness: the spec's priority scenario — three KMS-capable candidates
where only the second is boot-VGA — returns the second candidate's fd (11),
and examination stops right after it, through `claim_C4`. -/
theorem claim_C4_witness :
    (wlr_session_find_gpu [] ⟨true,
      [⟨true, false, some ("card0"), ⟨⟨10, true, some 100⟩, some (1, 1, 1)⟩⟩,
       ⟨true, true, some ("card1"), ⟨⟨11, true, some 101⟩, some (1, 1, 1)⟩⟩,
       ⟨true, false, some ("card2"), ⟨⟨12, true, some 102⟩, some (1, 1, 1)⟩⟩]⟩).fd
      = 11 ∧
    (find_gpu_loop [] (-1)
      ([⟨true, false, some ("card0"), ⟨⟨10, true, some 100⟩, some (1, 1, 1)⟩⟩] ++
        ⟨true, true, some ("card1"), ⟨⟨11, true, some 101⟩, some (1, 1, 1)⟩⟩ ::
        [⟨true, false, some ("card2"), ⟨⟨12, true, some 102⟩, some (1, 1, 1)⟩⟩])).examined =
      (find_gpu_loop [] (-1)
        [⟨true, false, some ("card0"), ⟨⟨10, true, some 100⟩, some (1, 1, 1)⟩⟩]).examined ++
        [⟨true, true, some ("card1"), ⟨⟨11, true, some 101⟩, some (1, 1, 1)⟩⟩] := by
  constructor
  · have h := claim_C4.2.1 [] ⟨true,
      [⟨true, false, some ("card0"), ⟨⟨10, true, some 100⟩, some (1, 1, 1)⟩⟩,
       ⟨true, true, some ("card1"), ⟨⟨11, true, some 101⟩, some (1, 1, 1)⟩⟩,
       ⟨true, false, some ("card2"), ⟨⟨12, true, some 102⟩, some (1, 1, 1)⟩⟩]⟩
      rfl (by decide)
    rw [h]
    decide
  · exact claim_C4.2.2.2 []
      [⟨true, false, some ("card0"), ⟨⟨10, true, some 100⟩, some (1, 1, 1)⟩⟩]
      ⟨true, true, some ("card1"), ⟨⟨11, true, some 101⟩, some (1, 1, 1)⟩⟩
      [⟨true, false, some ("card2"), ⟨⟨12, true, some 102⟩, some (1, 1, 1)⟩⟩]
      (by decide) (by decide) (by decide) rfl

/-- C10: an already-accepted fd is closed only after a replacement candidate
has fully passed the probe.  A rejected probe (under normal operation:
allocation and fstat succeed, the probed fd is fresh) leaves the previously
accepted fd as the candidate result, does not close it, and restores the
registry exactly; the loop's fd never drops below 0 once non-negative; hence
once any candidate has been accepted after some prefix of the enumeration,
discovery never returns -1. -/
theorem claim_C10 :
    (∀ (devices : List Device) (path : Option String) (env : KmsEnv)
        (fdOut : Int),
      env.openEnv.allocOk = true → env.openEnv.statResult.isSome = true →
      env.openEnv.backendFd ≠ fdOut →
      (device_is_kms devices path env fdOut).accepted = false →
      (device_is_kms devices path env fdOut).fdOut = fdOut ∧
      fdOut ∉ (device_is_kms devices path env fdOut).closedFds ∧
      (device_is_kms devices path env fdOut).devices = devices) ∧
    (∀ (cs : List Candidate) (devices : List Device) (fd : Int), 0 ≤ fd →
      0 ≤ (find_gpu_loop devices fd cs).fd) ∧
    (∀ (devices : List Device) (xs ys : List Candidate),
      0 ≤ (find_gpu_loop devices (-1) xs).fd →
      0 ≤ (find_gpu_loop devices (-1) (xs ++ ys)).fd ∧
      (find_gpu_loop devices (-1) (xs ++ ys)).fd ≠ -1) := by
  refine ⟨?_, ?_, ?_⟩
  · intro devices path env fdOut hAlloc hStat hFresh hrej
    obtain ⟨rdev, hrdev⟩ := Option.isSome_iff_exists.mp hStat
    cases path with
    | none =>
      rw [device_is_kms_none_path]
      exact ⟨rfl, by simp, rfl⟩
    | some p =>
      by_cases hfd : env.openEnv.backendFd < 0
      · rw [device_is_kms_open_fail devices p env fdOut hfd]
        exact ⟨rfl, by simp, rfl⟩
      · have hfd' : 0 ≤ env.openEnv.backendFd := Int.not_lt.mp hfd
        have hres : resPositive env.resources = false := by
          rw [device_is_kms_accepted] at hrej
          simpa [decide_eq_true hfd'] using hrej
        rw [device_is_kms_reject_after_open devices p env fdOut rdev hAlloc
          hrdev hfd' hres]
        exact ⟨rfl, by simp [Ne.symm hFresh], rfl⟩
  · intro cs devices fd h
    unfold find_gpu_loop
    exact foldl_gpu_fd_nonneg cs _ h
  · intro devices xs ys h
    unfold find_gpu_loop at h ⊢
    rw [List.foldl_append]
    have hnn := foldl_gpu_fd_nonneg ys _ h
    refine ⟨hnn, ?_⟩
    intro hc
    rw [hc] at hnn
    exact absurd hnn (by decide)

/-- C10 witness: a probe that opens fd 8 and then fails the resource query
leaves the previously accepted fd 7 selected, unclosed and registered, and a
one-candidate accepted prefix keeps discovery's result non-negative over a
longer enumeration, through `claim_C10`. -/
theorem claim_C10_witness :
    (device_is_kms [⟨7, 3⟩] (some ("card1")) ⟨⟨8, true, some 4⟩, none⟩ 7).fdOut
      = 7 ∧
    (7 : Int) ∉ (device_is_kms [⟨7, 3⟩] (some ("card1"))
      ⟨⟨8, true, some 4⟩, none⟩ 7).closedFds ∧
    (device_is_kms [⟨7, 3⟩] (some ("card1"))
      ⟨⟨8, true, some 4⟩, none⟩ 7).devices = [⟨7, 3⟩] ∧
    (find_gpu_loop [] (-1)
      ([⟨true, false, some ("card0"), ⟨⟨10, true, some 100⟩, some (1, 1, 1)⟩⟩] ++
        [⟨true, false, some ("card2"), ⟨⟨-1, true, none⟩, none⟩⟩])).fd ≠ -1 := by
  have h1 := claim_C10.1 [⟨7, 3⟩] (some ("card1")) ⟨⟨8, true, some 4⟩, none⟩ 7
    rfl rfl (by decide) (by decide)
  have h2 := (claim_C10.2.2 []
    [⟨true, false, some ("card0"), ⟨⟨10, true, some 100⟩, some (1, 1, 1)⟩⟩]
    [⟨true, false, some ("card2"), ⟨⟨-1, true, none⟩, none⟩⟩]
    (by decide)).2
  exact ⟨h1.1, h1.2.1, h1.2.2, h2⟩

/-- C5: a delivered hotplug record whose action is not exactly "change"
fires no signal; a "change" record whose device number matches some entry
fires exactly the first matching entry's signal once, with the session as
context; every fired signal belongs to an entry with the record's device
number; a "change" record matching nothing fires nothing; and the record is
released on every path. -/
theorem claim_C5 (sessionId : Nat) (devices : List Device) (rec : UdevRecord) :
    (rec.action ≠ some ("change") → (udev_event sessionId devices rec).fired = []) ∧
    (rec.action = some ("change") →
      (∀ xs d ys, devices = xs ++ d :: ys →
        (∀ x ∈ xs, x.dev ≠ rec.devnum) → d.dev = rec.devnum →
        (udev_event sessionId devices rec).fired = [(d, sessionId)]) ∧
      ((∀ d ∈ devices, d.dev ≠ rec.devnum) →
        (udev_event sessionId devices rec).fired = [])) ∧
    (∀ pr ∈ (udev_event sessionId devices rec).fired,
      pr.1.dev = rec.devnum ∧ pr.2 = sessionId ∧ pr.1 ∈ devices) ∧
    (udev_event sessionId devices rec).released = true := by
  refine ⟨?_, ?_, ?_, ?_⟩
  · intro h
    unfold udev_event
    simp [h]
  · intro h
    constructor
    · intro xs d ys hdev hxs hd
      unfold udev_event
      rw [if_neg (by simp [h]), hdev]
      rw [find?_append_first _ xs ys d (fun x hx => by simpa using hxs x hx)
        (by simpa using hd)]
    · intro hnone
      unfold udev_event
      rw [if_neg (by simp [h])]
      rw [List.find?_eq_none.mpr (fun d hd => by simpa using hnone d hd)]
  · intro pr hpr
    unfold udev_event at hpr
    split at hpr
    · simp at hpr
    · cases hf : devices.find? (fun d => d.dev == rec.devnum) with
      | none => rw [hf] at hpr; simp at hpr
      | some d =>
        rw [hf] at hpr
        simp only [List.mem_singleton] at hpr
        subst hpr
        have h1 := List.find?_some hf
        have h2 := List.mem_of_find?_eq_some hf
        exact ⟨by simpa using h1, rfl, h2⟩
  · unfold udev_event
    split
    · rfl
    · cases devices.find? (fun d => d.dev == rec.devnum) <;> rfl

/-- C5 witness: the spec's routing scenario — registry {A: dev 5, B: dev 7},
"change" record for dev 7 — fires exactly B's signal once, with the session
as context. -/
theorem claim_C5_witness :
    (udev_event 1 [⟨10, 5⟩, ⟨11, 7⟩] ⟨some ("change"), 7⟩).fired =
      [(⟨11, 7⟩, 1)] ∧
    (udev_event 1 [⟨10, 5⟩, ⟨11, 7⟩] ⟨some ("add"), 7⟩).fired = [] ∧
    (udev_event 1 [⟨10, 5⟩, ⟨11, 7⟩] ⟨some ("change"), 7⟩).released = true := by
  have h := claim_C5 1 [⟨10, 5⟩, ⟨11, 7⟩] ⟨some ("change"), 7⟩
  have hadd := claim_C5 1 [⟨10, 5⟩, ⟨11, 7⟩] ⟨some ("add"), 7⟩
  refine ⟨?_, ?_, h.2.2.2⟩
  · exact (h.2.1 rfl).1 [⟨10, 5⟩] ⟨11, 7⟩ [] rfl (by decide) rfl
  · exact hadd.1 (by decide)

/-- C6: under normal operation (allocation and fstat succeed inside the
probe's open, the probe's fd is distinct from the previously accepted one,
and a previously accepted fd has its registry entry), the KMS probe accepts
a candidate iff the open through Session Core succeeds (devnode present,
backend fd non-negative) and all three queried resource counts are strictly
positive; no path hits the fatal close; on rejection the previously accepted
fd is untouched (not closed, still the candidate), the registry is restored,
and the probed fd — if one was opened — is the only fd closed; on acceptance
the previously accepted fd (if any) is the only fd closed and the probed fd
replaces it. -/
theorem claim_C6 (devices : List Device) (path : Option String) (env : KmsEnv)
    (fdOut : Int)
    (hAlloc : env.openEnv.allocOk = true)
    (hStat : env.openEnv.statResult.isSome = true)
    (hFresh : env.openEnv.backendFd ≠ fdOut)
    (hReg : 0 ≤ fdOut → ∃ d ∈ devices, d.fd = fdOut) :
    ((device_is_kms devices path env fdOut).accepted = true ↔
      (path.isSome = true ∧ 0 ≤ env.openEnv.backendFd ∧
        resPositive env.resources = true)) ∧
    (device_is_kms devices path env fdOut).fatal = false ∧
    ((device_is_kms devices path env fdOut).accepted = false →
      (device_is_kms devices path env fdOut).fdOut = fdOut ∧
      fdOut ∉ (device_is_kms devices path env fdOut).closedFds ∧
      (device_is_kms devices path env fdOut).devices = devices ∧
      (path.isSome = true → 0 ≤ env.openEnv.backendFd →
        (device_is_kms devices path env fdOut).closedFds =
          [env.openEnv.backendFd]) ∧
      ((path = none ∨ env.openEnv.backendFd < 0) →
        (device_is_kms devices path env fdOut).closedFds = [])) ∧
    ((device_is_kms devices path env fdOut).accepted = true →
      (device_is_kms devices path env fdOut).fdOut = env.openEnv.backendFd ∧
      (0 ≤ fdOut →
        (device_is_kms devices path env fdOut).closedFds = [fdOut]) ∧
      (fdOut < 0 → (device_is_kms devices path env fdOut).closedFds = [])) := by
  obtain ⟨rdev, hrdev⟩ := Option.isSome_iff_exists.mp hStat
  cases path with
  | none =>
    rw [device_is_kms_none_path]
    refine ⟨by simp, rfl, ?_, (by simp)⟩
    intro _
    exact ⟨rfl, by simp, rfl, (by simp), fun _ => rfl⟩
  | some p =>
    by_cases hfd : env.openEnv.backendFd < 0
    · rw [device_is_kms_open_fail devices p env fdOut hfd]
      refine ⟨by simp [Int.not_le.mpr hfd], rfl, ?_, (by simp)⟩
      intro _
      exact ⟨rfl, by simp, rfl,
        fun _ h => absurd h (Int.not_le.mpr hfd), fun _ => rfl⟩
    · have hfd' : 0 ≤ env.openEnv.backendFd := Int.not_lt.mp hfd
      by_cases hres : resPositive env.resources
      · by_cases hOut : 0 ≤ fdOut
        · rw [device_is_kms_accept_replace devices p env fdOut rdev hAlloc
            hrdev hfd' hres hOut hFresh (hReg hOut)]
          refine ⟨by simp [hfd', hres], rfl, (by simp), ?_⟩
          intro _
          exact ⟨rfl, fun _ => rfl, fun h => absurd hOut (Int.not_le.mpr h)⟩
        · rw [device_is_kms_accept_first devices p env fdOut rdev hAlloc
            hrdev hfd' hres (Int.not_le.mp hOut)]
          refine ⟨by simp [hfd', hres], rfl, (by simp), ?_⟩
          intro _
          exact ⟨rfl, fun h => absurd h hOut, fun _ => rfl⟩
      · rw [device_is_kms_reject_after_open devices p env fdOut rdev hAlloc
          hrdev hfd' (Bool.not_eq_true _ ▸ hres)]
        refine ⟨by simp [hres], rfl, ?_, by intro h; cases h⟩
        intro _
        refine ⟨rfl, by simp [Ne.symm hFresh], rfl, fun _ _ => rfl, ?_⟩
        rintro (h | h)
        · cases h
        · exact absurd h hfd

/-- C6 witness: a concrete replacement probe through `claim_C6` — registry
holding the previously accepted fd 3, probe opens fd 5 with all resource
counts positive: accepted, fd 3 closed, no fatal path. -/
theorem claim_C6_witness :
    (device_is_kms [⟨3, 10⟩] (some ("card1"))
      ⟨⟨5, true, some 11⟩, some (1, 1, 1)⟩ 3).accepted = true ∧
    (device_is_kms [⟨3, 10⟩] (some ("card1"))
      ⟨⟨5, true, some 11⟩, some (1, 1, 1)⟩ 3).fatal = false ∧
    (device_is_kms [⟨3, 10⟩] (some ("card1"))
      ⟨⟨5, true, some 11⟩, some (1, 1, 1)⟩ 3).closedFds = [3] := by
  have h := claim_C6 [⟨3, 10⟩] (some ("card1"))
    ⟨⟨5, true, some 11⟩, some (1, 1, 1)⟩ 3
    rfl rfl (by decide) (fun _ => ⟨⟨3, 10⟩, by decide, rfl⟩)
  have hacc : (device_is_kms [⟨3, 10⟩] (some ("card1"))
      ⟨⟨5, true, some 11⟩, some (1, 1, 1)⟩ 3).accepted = true :=
    h.1.mpr ⟨rfl, by decide, by decide⟩
  exact ⟨hacc, h.2.1, ((h.2.2.2 hacc).2.1 (by decide))⟩

/-- C7: for an fd with no matching registry entry, `find_device` finds
nothing and both `wlr_session_close_file` and `wlr_session_signal_add` reach
the fatal assertion path (no silent success, no state change); for an fd
with a matching entry, the lookup returns the first such entry and both
operations take their non-fatal path. -/
theorem claim_C7 (devices : List Device) (fd : Int) :
    ((∀ d ∈ devices, d.fd ≠ fd) →
      find_device devices fd = none ∧
      wlr_session_close_file devices fd = .error () ∧
      wlr_session_signal_add devices fd = .error ()) ∧
    ((∃ d ∈ devices, d.fd = fd) →
      ∃ d, find_device devices fd = some d ∧ d ∈ devices ∧ d.fd = fd ∧
        wlr_session_signal_add devices fd = .ok d ∧
        wlr_session_close_file devices fd = .ok (removeDevice devices fd)) := by
  constructor
  · intro h
    have hnone := find_device_eq_none devices fd h
    refine ⟨hnone, ?_, ?_⟩
    · unfold wlr_session_close_file
      rw [hnone]
    · unfold wlr_session_signal_add
      rw [hnone]
  · intro h
    obtain ⟨d, hd⟩ := find_device_isSome devices fd h
    have hmem := find_device_mem devices fd d hd
    refine ⟨d, hd, hmem.1, hmem.2, ?_, ?_⟩
    · unfold wlr_session_signal_add
      rw [hd]
    · unfold wlr_session_close_file
      rw [hd]

/-- C7 witness: closing fd 9 on a registry holding only fd 4 hits the fatal
path; closing fd 4 succeeds, through `claim_C7`. -/
theorem claim_C7_witness :
    wlr_session_close_file [⟨4, 2⟩] 9 = .error () ∧
    wlr_session_signal_add [⟨4, 2⟩] 9 = .error () ∧
    wlr_session_close_file [⟨4, 2⟩] 4 = .ok [] := by
  have h9 := (claim_C7 [⟨4, 2⟩] 9).1 (by decide)
  have h4 := (claim_C7 [⟨4, 2⟩] 4).2 ⟨⟨4, 2⟩, by decide, rfl⟩
  obtain ⟨d, _, _, _, _, hclose⟩ := h4
  exact ⟨h9.2.1, h9.2.2, hclose⟩

/-- C8: the probe loop selects the first backend in the priority list whose
own `create` succeeds (`find?` over the fixed array: logind first when
compiled in, then direct); the backends actually probed are exactly the
failing ones before it plus the selected one, so no later backend is probed
after a success; the result is `none` exactly when every probe fails; and no
session-level operation ever changes the chosen `impl`. -/
theorem claim_C8 :
    (∀ (ok : BackendImpl → Bool) (l : List BackendImpl),
      (probe_backends ok l).1 = l.find? ok ∧
      (probe_backends ok l).2 =
        l.takeWhile (fun b => !ok b) ++
          (l.dropWhile (fun b => !ok b)).take 1) ∧
    (impls true = [BackendImpl.logind, BackendImpl.direct] ∧
      impls false = [BackendImpl.direct]) ∧
    (∀ (ok : BackendImpl → Bool) (hs : Bool),
      ((probe_backends ok (impls hs)).1 = none ↔
        ∀ b ∈ impls hs, ok b = false)) ∧
    (∀ (s : WlrSession) (path : String) (env : OpenEnv),
      ((sessionOpenFile s path env).2).impl = s.impl) ∧
    (∀ (s : WlrSession) (fd : Int) (s' : WlrSession),
      sessionCloseFile s fd = .ok s' → s'.impl = s.impl) ∧
    (∀ (sessionId : Nat) (s : WlrSession) (rec : UdevRecord),
      ((sessionDispatch sessionId s rec).1).impl = s.impl) := by
  refine ⟨fun ok l => ⟨probe_backends_fst ok l, probe_backends_snd ok l⟩,
    ⟨rfl, rfl⟩, ?_, fun s path env => rfl, ?_, fun sid s rec => rfl⟩
  · intro ok hs
    rw [probe_backends_fst]
    rw [List.find?_eq_none]
    constructor
    · intro h b hb
      simpa using h b hb
    · intro h b hb
      simp [h b hb]
  · intro s fd s' h
    unfold sessionCloseFile at h
    cases hc : wlr_session_close_file s.devices fd with
    | error e => rw [hc] at h; cases h
    | ok ds =>
      rw [hc] at h
      cases h
      rfl

/-- C8 witness: with logind compiled in but failing and direct succeeding,
the probe selects direct after probing both in priority order, and a
session-level close keeps the chosen backend, through `claim_C8`. -/
theorem claim_C8_witness :
    (probe_backends (fun b => b == BackendImpl.direct) (impls true)).1 =
      some BackendImpl.direct ∧
    (probe_backends (fun b => b == BackendImpl.direct) (impls true)).2 =
      [BackendImpl.logind, BackendImpl.direct] ∧
    (WlrSession.mk BackendImpl.direct true []).impl =
      (WlrSession.mk BackendImpl.direct true [⟨1, 2⟩]).impl := by
  have h1 := (claim_C8.1 (fun b => b == BackendImpl.direct) (impls true)).1
  have h2 := (claim_C8.1 (fun b => b == BackendImpl.direct) (impls true)).2
  have h3 := claim_C8.2.2.2.2.1 ⟨BackendImpl.direct, true, [⟨1, 2⟩]⟩ 1
    ⟨BackendImpl.direct, true, []⟩ rfl
  exact ⟨h1.trans (by decide), h2.trans (by decide), h3⟩

/-- C9: a Device entry's recorded `dev` comes from the `st_rdev` of the
fstat at open time — the successful open inserts exactly
`{fd := backend fd, dev := st_rdev}` and the result never depends on the
path string — and no later operation rewrites it: entries surviving a close
are unchanged members of the old registry, `signal_add` only returns an
existing entry, hotplug dispatch leaves the session untouched, and every
entry present after GPU discovery is either an original unchanged entry or
one created with `dev` equal to its own open's `st_rdev`. -/
theorem claim_C9 :
    (∀ (devices : List Device) (path : String) (env : OpenEnv) (rdev : Nat),
      env.allocOk = true → env.statResult = some rdev → 0 ≤ env.backendFd →
      (wlr_session_open_file devices path env).devices =
        ⟨env.backendFd, rdev⟩ :: devices) ∧
    (∀ (devices : List Device) (p₁ p₂ : String) (env : OpenEnv),
      wlr_session_open_file devices p₁ env =
        wlr_session_open_file devices p₂ env) ∧
    (∀ (devices : List Device) (fd : Int) (ds : List Device),
      wlr_session_close_file devices fd = .ok ds → ∀ d ∈ ds, d ∈ devices) ∧
    (∀ (devices : List Device) (fd : Int) (d : Device),
      wlr_session_signal_add devices fd = .ok d → d ∈ devices) ∧
    (∀ (sessionId : Nat) (s : WlrSession) (rec : UdevRecord),
      (sessionDispatch sessionId s rec).1 = s) ∧
    (∀ (devices : List Device) (env : GpuEnv) (d : Device),
      d ∈ (wlr_session_find_gpu devices env).devices →
      d ∈ devices ∨ ∃ c ∈ env.candidates,
        d.fd = c.kms.openEnv.backendFd ∧
          c.kms.openEnv.statResult = some d.dev) := by
  refine ⟨?_, fun devices p₁ p₂ env => rfl, ?_, ?_, fun sid s rec => rfl, ?_⟩
  · intro devices path env rdev hAlloc hStat hfd
    exact open_file_devices_of_ok devices path env rdev hfd hAlloc hStat
  · intro devices fd ds h d hd
    rw [close_file_ok devices fd ds h] at hd
    exact removeDevice_mem devices fd d hd
  · intro devices fd d h
    unfold wlr_session_signal_add at h
    cases hf : find_device devices fd with
    | none => rw [hf] at h; cases h
    | some x =>
      rw [hf] at h
      have hxd : x = d := by injection h
      subst hxd
      exact (find_device_mem devices fd x hf).1
  · intro devices env d h
    unfold wlr_session_find_gpu at h
    split at h
    · exact Or.inl h
    · exact foldl_gpu_devices_mem env.candidates _ d h

/-- C9 witness: a concrete open records `dev = 9` from the fstat result, and
a concrete discovery run only creates entries carrying their open's
`st_rdev`, through `claim_C9`. -/
theorem claim_C9_witness :
    (wlr_session_open_file [] "/dev/input/event0" ⟨4, true, some 9⟩).devices =
      [⟨4, 9⟩] ∧
    (⟨4, 9⟩ : Device) ∈ [(⟨4, 9⟩ : Device)] := by
  have h1 := claim_C9.1 [] "/dev/input/event0" ⟨4, true, some 9⟩ 9
    rfl rfl (by decide)
  exact ⟨h1, List.mem_singleton.mpr rfl⟩

end Session
